import Mathlib

/-!
Shallow embedding of `sntp_server.py`, a small SNTP server with a
configurable time delay.

Modelling conventions: wall-clock readings returned by Python's `time()`
(floats) are modelled as rationals; Python's unbounded `int` is modelled as
`ℤ`, or as `ℕ` where the source value is obtained from bytes and hence
nonnegative; byte strings are lists of natural numbers below 256; a Python
function that can either return `None` or raise is modelled with `Option`.
-/

namespace SNTP

/-- Days from 1900-01-01 up to January 1 of `year` in the proleptic
Gregorian calendar, as used by Python's `datetime.date` ordinals. -/
def daysBeforeYear (year : ℕ) : ℕ :=
  let y := year - 1
  y * 365 + y / 4 - y / 100 + y / 400

/-- The module constant `TIME_OFFSET = (date(1970, 1, 1) - date(1900, 1, 1)).days * 24 * 3600`:
the number of seconds between the NTP epoch (1900-01-01) and the Unix
epoch (1970-01-01). -/
def TIME_OFFSET : ℕ := (daysBeforeYear 1970 - daysBeforeYear 1900) * 24 * 3600

/-- Embeds `SNTPMessage.format_time`: Python's `int(raw_time * (2 ** 32))`.
`int()` applied to a real number truncates toward zero; on a rational this
is the truncating division of the numerator by the denominator.  (The
multiplication by `2 ** 32` is exact in binary floating point, so the
rational model loses nothing there.) -/
def format_time (raw_time : ℚ) : ℤ :=
  ((raw_time * 2 ^ 32).num).tdiv ((raw_time * 2 ^ 32).den : ℤ)

/-- Big-endian byte string of `len` bytes holding `x` (only the low
`8 * len` bits are kept; range checking is done by the packing model). -/
def toBytesBE : ℕ → ℕ → List ℕ
  | 0, _ => []
  | n + 1, x => toBytesBE n (x / 256) ++ [x % 256]

/-- Python's `int.from_bytes(data, 'big')`. -/
def fromBytesBE (data : List ℕ) : ℕ :=
  data.foldl (fun acc b => acc * 256 + b) 0

/-- Model of `struct.pack('>3Bb5I3Q', ...)`: big-endian packing of three
unsigned bytes, one signed byte, five unsigned 32-bit words and three
unsigned 64-bit words, 48 bytes in all.  The result is `none` (Python:
`struct.error` is raised) when an argument is out of range for its format
code. -/
def pack_3Bb5I3Q (b0 b1 b2 : ℕ) (sb : ℤ) (i1 i2 i3 i4 i5 : ℕ) (q1 q2 q3 : ℤ) :
    Option (List ℕ) :=
  if b0 < 256 ∧ b1 < 256 ∧ b2 < 256 ∧ -128 ≤ sb ∧ sb < 128 ∧
      i1 < 2 ^ 32 ∧ i2 < 2 ^ 32 ∧ i3 < 2 ^ 32 ∧ i4 < 2 ^ 32 ∧ i5 < 2 ^ 32 ∧
      0 ≤ q1 ∧ q1 < 2 ^ 64 ∧ 0 ≤ q2 ∧ q2 < 2 ^ 64 ∧ 0 ≤ q3 ∧ q3 < 2 ^ 64 then
    some ([b0, b1, b2, (sb % 256).toNat] ++
      toBytesBE 4 i1 ++ toBytesBE 4 i2 ++ toBytesBE 4 i3 ++ toBytesBE 4 i4 ++
      toBytesBE 4 i5 ++ toBytesBE 8 q1.toNat ++ toBytesBE 8 q2.toNat ++
      toBytesBE 8 q3.toNat)
  else none

/-- The state of an `SNTPMessage` object: every attribute assigned by
`SNTPMessage.__init__`. -/
structure SNTPMessage where
  correct : Bool
  raw : List ℕ
  time_offset : ℤ
  leap_indicator : ℕ
  version : ℕ
  mode : ℕ
  stratum : ℕ
  poll : ℕ
  precision : ℤ
  root_delay : ℕ
  root_dispersion : ℕ
  ref_id : ℕ
  ref_time : ℕ
  originate_time : ℕ
  receive_time : ℚ
  transmit_time : ℚ

/-- Embeds `SNTPMessage.__init__(is_correct, version=3, mode=3,
originate_time=0, receive_time=0)`. -/
def SNTPMessage.init (is_correct : Bool) (version : ℕ := 3) (mode : ℕ := 3)
    (originate_time : ℕ := 0) (receive_time : ℚ := 0) : SNTPMessage where
  correct := is_correct
  raw := []
  time_offset := 0
  leap_indicator := 0
  version := version
  mode := mode
  stratum := 0
  poll := 0
  precision := 0
  root_delay := 0
  root_dispersion := 0
  ref_id := 0
  ref_time := 0
  originate_time := originate_time
  receive_time := receive_time
  transmit_time := 0

/-- Embeds `SNTPMessage.get_reply`; `now` is the value `time()` returns at the
moment of the call. -/
def SNTPMessage.get_reply (m : SNTPMessage) (now : ℚ) : Option (List ℕ) :=
  let first := (m.leap_indicator <<< 6) ||| (m.version <<< 3) ||| m.mode
  let receive_time := format_time (m.receive_time + (m.time_offset : ℚ))
  let transmit_time := format_time (now + (TIME_OFFSET : ℚ) + (m.time_offset : ℚ))
  pack_3Bb5I3Q first m.stratum m.poll m.precision 0 0 0 0 0
    (m.originate_time : ℤ) receive_time transmit_time

/-- Embeds `Server.format_request`; `now` is the `time()` reading taken when a
valid request is turned into a message.  A Python `None` result is `none`. -/
def format_request (data : List ℕ) (now : ℚ) : Option SNTPMessage :=
  if data.length < 48 then some (SNTPMessage.init false)
  else
    let version := ((data.getD 0 0) &&& 56) >>> 3
    let mode := (data.getD 0 0) &&& 7
    let originate_time := fromBytesBE ((data.drop 40).take 8)
    if mode ≠ 3 then none
    else some (SNTPMessage.init true version 4 originate_time (now + (TIME_OFFSET : ℚ)))

/-- One pass of the body of `Server.reply_to_request` over a dequeued
entry.  The truthiness test `if sntp_message:` succeeds exactly when the
entry is not `None` (an `SNTPMessage` instance is always truthy); the
worker then installs the configured delay as `time_offset` and encodes the
reply.  The result is the datagram sent back to the client, `none` when
nothing is sent — either because the entry was `None` or because
`struct.pack` raised. -/
def reply_to_request (time_delay : ℤ) (entry : Option SNTPMessage) (now : ℚ) :
    Option (List ℕ) :=
  match entry with
  | none => none
  | some m => SNTPMessage.get_reply { m with time_offset := time_delay } now

/-- End-to-end handling of one datagram: the receiver decodes it at
wall-clock reading `recvNow`, a worker answers it at wall-clock reading
`sendNow`. -/
def server_response (time_delay : ℤ) (data : List ℕ) (recvNow sendNow : ℚ) :
    Option (List ℕ) :=
  reply_to_request time_delay (format_request data recvNow) sendNow

/-- A minimal well-formed client request: mode 3 in byte 0, all other
bytes zero. -/
def reqSimple : List ℕ := 3 :: List.replicate 47 0

/-- The end-to-end scenario request: `byte0 = 0x1B` (leap indicator 0,
version 3, mode 3) and bytes 40-47 holding `0x0000000100000000`. -/
def reqScenario : List ℕ := 27 :: (List.replicate 39 0 ++ [0, 0, 0, 1, 0, 0, 0, 0])

theorem TIME_OFFSET_eq : TIME_OFFSET = 2208988800 := by decide

theorem tdiv_num_den_eq_floor {q : ℚ} (h : 0 ≤ q) :
    (q.num).tdiv (q.den : ℤ) = ⌊q⌋ := by
  rw [Int.tdiv_eq_ediv (Rat.num_nonneg.mpr h) (Int.natCast_nonneg _), ← Rat.floor_def]

theorem format_time_eq_floor {q : ℚ} (h : 0 ≤ q) :
    format_time q = ⌊q * 2 ^ 32⌋ := by
  have h' : 0 ≤ q * 2 ^ 32 := mul_nonneg h (by norm_num)
  exact tdiv_num_den_eq_floor h'

theorem format_time_eq_ceil {q : ℚ} (h : q < 0) :
    format_time q = ⌈q * 2 ^ 32⌉ := by
  have h' : 0 ≤ -(q * 2 ^ 32) :=
    le_of_lt (neg_pos.mpr (mul_neg_of_neg_of_pos h (by norm_num)))
  unfold format_time
  have hden : ((q * 2 ^ 32).den : ℤ) = ((-(q * 2 ^ 32)).den : ℤ) := by
    rw [Rat.neg_den]
  have hnum : (q * 2 ^ 32).num = -((-(q * 2 ^ 32)).num) := by
    rw [Rat.neg_num, neg_neg]
  rw [hnum, hden, Int.neg_tdiv, tdiv_num_den_eq_floor h', Int.floor_neg, neg_neg]

theorem format_time_intCast (n : ℤ) : format_time (n : ℚ) = n * 2 ^ 32 := by
  have h : ((n : ℚ) * 2 ^ 32) = ((n * 2 ^ 32 : ℤ) : ℚ) := by push_cast; ring
  unfold format_time
  rw [h, Rat.num_intCast, Rat.den_intCast]
  exact_mod_cast Int.tdiv_one _

theorem format_time_nonneg {q : ℚ} (h : 0 ≤ q) : 0 ≤ format_time q := by
  rw [format_time_eq_floor h]
  exact Int.floor_nonneg.mpr (mul_nonneg h (by norm_num))

theorem format_time_lt {q : ℚ} (h0 : 0 ≤ q) (h : q < 2 ^ 32) :
    format_time q < 2 ^ 64 := by
  rw [format_time_eq_floor h0, Int.floor_lt]
  calc q * 2 ^ 32 < 2 ^ 32 * 2 ^ 32 := by
        exact mul_lt_mul_of_pos_right h (by norm_num)
    _ = ((2 ^ 64 : ℤ) : ℚ) := by norm_num

theorem format_time_mono {a b : ℚ} (ha : 0 ≤ a) (h : a ≤ b) :
    format_time a ≤ format_time b := by
  rw [format_time_eq_floor ha, format_time_eq_floor (ha.trans h)]
  exact Int.floor_mono (mul_le_mul_of_nonneg_right h (by norm_num))

/-- Truncation to a `2 ^ 32`-denominator grid moves a nonnegative value by
at most one encoding unit. -/
theorem format_time_close {q : ℚ} (h : 0 ≤ q) :
    |((format_time q : ℤ) : ℚ) / 2 ^ 32 - q| ≤ 1 / 2 ^ 32 := by
  rw [format_time_eq_floor h]
  have h1 : ((⌊q * 2 ^ 32⌋ : ℤ) : ℚ) ≤ q * 2 ^ 32 := Int.floor_le _
  have h2 : q * 2 ^ 32 - 1 < ((⌊q * 2 ^ 32⌋ : ℤ) : ℚ) := Int.sub_one_lt_floor _
  have e1 : ((⌊q * 2 ^ 32⌋ : ℤ) : ℚ) / 2 ^ 32 - q =
      (((⌊q * 2 ^ 32⌋ : ℤ) : ℚ) - q * 2 ^ 32) / 2 ^ 32 := by ring
  rw [e1, abs_div, abs_of_pos (show (0 : ℚ) < 2 ^ 32 by norm_num)]
  gcongr
  rw [abs_le]
  constructor <;> linarith

theorem format_time_sub_one_lt {q : ℚ} (h : 0 ≤ q) :
    q - 1 / 2 ^ 32 ≤ ((format_time q : ℤ) : ℚ) / 2 ^ 32 := by
  have := format_time_close h
  rw [abs_le] at this
  linarith [this.1]

theorem toBytesBE_length (n x : ℕ) : (toBytesBE n x).length = n := by
  induction n generalizing x with
  | zero => rfl
  | succ n ih => simp [toBytesBE, ih]

theorem fromBytesBE_foldl (a : ℕ) (l : List ℕ) :
    l.foldl (fun acc b => acc * 256 + b) a = a * 256 ^ l.length + fromBytesBE l := by
  induction l generalizing a with
  | nil => simp [fromBytesBE]
  | cons b l ih =>
    show List.foldl _ (a * 256 + b) l = _
    rw [ih (a * 256 + b)]
    have hb : fromBytesBE (b :: l) = b * 256 ^ l.length + fromBytesBE l := by
      show List.foldl _ (0 * 256 + b) l = _
      rw [ih (0 * 256 + b)]
      ring
    rw [hb]
    simp [List.length_cons]
    ring

theorem fromBytesBE_append (l1 l2 : List ℕ) :
    fromBytesBE (l1 ++ l2) = fromBytesBE l1 * 256 ^ l2.length + fromBytesBE l2 := by
  unfold fromBytesBE
  rw [List.foldl_append]
  exact fromBytesBE_foldl _ l2

theorem fromBytesBE_toBytesBE {n x : ℕ} (h : x < 256 ^ n) :
    fromBytesBE (toBytesBE n x) = x := by
  induction n generalizing x with
  | zero =>
    have : x = 0 := by simpa using h
    simp [this, toBytesBE, fromBytesBE]
  | succ n ih =>
    rw [toBytesBE, fromBytesBE_append]
    have hdiv : x / 256 < 256 ^ n := by
      rw [Nat.div_lt_iff_lt_mul (by norm_num : 0 < 256)]
      calc x < 256 ^ (n + 1) := h
        _ = 256 ^ n * 256 := by rw [pow_succ]
    rw [ih hdiv]
    have h1 : fromBytesBE [x % 256] = x % 256 := by
      simp [fromBytesBE]
    rw [h1]
    simp
    omega

theorem fromBytesBE_lt (l : List ℕ) (h : ∀ b ∈ l, b < 256) :
    fromBytesBE l < 256 ^ l.length := by
  induction l with
  | nil => simp [fromBytesBE]
  | cons b l ih =>
    have hb : fromBytesBE (b :: l) = b * 256 ^ l.length + fromBytesBE l := by
      show List.foldl _ (0 * 256 + b) l = _
      rw [fromBytesBE_foldl (0 * 256 + b) l]
      ring
    rw [hb, List.length_cons, pow_succ]
    have h1 : b < 256 := h b (List.mem_cons_self b l)
    have h2 : fromBytesBE l < 256 ^ l.length := ih fun x hx => h x (List.mem_cons_of_mem b hx)
    nlinarith [pow_pos (show 0 < 256 by norm_num) l.length]

theorem get_reply_eq (m : SNTPMessage) (now : ℚ)
    (h0 : (m.leap_indicator <<< 6) ||| (m.version <<< 3) ||| m.mode < 256)
    (h1 : m.stratum < 256) (h2 : m.poll < 256)
    (h3 : -128 ≤ m.precision) (h4 : m.precision < 128)
    (h5 : (m.originate_time : ℤ) < 2 ^ 64)
    (h6 : 0 ≤ format_time (m.receive_time + (m.time_offset : ℚ)))
    (h7 : format_time (m.receive_time + (m.time_offset : ℚ)) < 2 ^ 64)
    (h8 : 0 ≤ format_time (now + (TIME_OFFSET : ℚ) + (m.time_offset : ℚ)))
    (h9 : format_time (now + (TIME_OFFSET : ℚ) + (m.time_offset : ℚ)) < 2 ^ 64) :
    m.get_reply now = some (
      [(m.leap_indicator <<< 6) ||| (m.version <<< 3) ||| m.mode,
        m.stratum, m.poll, (m.precision % 256).toNat] ++ List.replicate 20 0 ++
      toBytesBE 8 m.originate_time ++
      toBytesBE 8 (format_time (m.receive_time + (m.time_offset : ℚ))).toNat ++
      toBytesBE 8 (format_time (now + (TIME_OFFSET : ℚ) + (m.time_offset : ℚ))).toNat) := by
  unfold SNTPMessage.get_reply pack_3Bb5I3Q
  rw [if_pos ⟨h0, h1, h2, h3, h4, by norm_num, by norm_num, by norm_num, by norm_num,
    by norm_num, Int.natCast_nonneg _, h5, h6, h7, h8, h9⟩]
  rfl

theorem get_reply_some_inv (m : SNTPMessage) (now : ℚ) (bs : List ℕ)
    (h : m.get_reply now = some bs) :
    0 ≤ format_time (m.receive_time + (m.time_offset : ℚ)) ∧
      format_time (m.receive_time + (m.time_offset : ℚ)) < 2 ^ 64 ∧
      0 ≤ format_time (now + (TIME_OFFSET : ℚ) + (m.time_offset : ℚ)) ∧
      format_time (now + (TIME_OFFSET : ℚ) + (m.time_offset : ℚ)) < 2 ^ 64 ∧
      (m.originate_time : ℤ) < 2 ^ 64 ∧
      bs = [(m.leap_indicator <<< 6) ||| (m.version <<< 3) ||| m.mode,
          m.stratum, m.poll, (m.precision % 256).toNat] ++ List.replicate 20 0 ++
        toBytesBE 8 m.originate_time ++
        toBytesBE 8 (format_time (m.receive_time + (m.time_offset : ℚ))).toNat ++
        toBytesBE 8 (format_time (now + (TIME_OFFSET : ℚ) + (m.time_offset : ℚ))).toNat := by
  unfold SNTPMessage.get_reply pack_3Bb5I3Q at h
  dsimp only at h
  split at h
  case isTrue hc =>
    obtain ⟨-, -, -, -, -, -, -, -, -, -, -, ho, hr0, hr1, ht0, ht1⟩ := hc
    refine ⟨hr0, hr1, ht0, ht1, ho, ?_⟩
    have hbs := (Option.some_injective _ h).symm
    rw [hbs]
    rfl
  case isFalse => exact absurd h (by simp)

theorem format_request_malformed {data : List ℕ} (h : data.length < 48) (now : ℚ) :
    format_request data now = some (SNTPMessage.init false) := by
  unfold format_request
  rw [if_pos h]

theorem format_request_wrong_mode {data : List ℕ} (h : ¬ data.length < 48)
    (hm : (data.getD 0 0) &&& 7 ≠ 3) (now : ℚ) : format_request data now = none := by
  unfold format_request
  rw [if_neg h]
  dsimp only
  rw [if_pos hm]

theorem format_request_valid {data : List ℕ} (h : ¬ data.length < 48)
    (hm : (data.getD 0 0) &&& 7 = 3) (now : ℚ) :
    format_request data now = some (SNTPMessage.init true (((data.getD 0 0) &&& 56) >>> 3) 4
      (fromBytesBE ((data.drop 40).take 8)) (now + (TIME_OFFSET : ℚ))) := by
  unfold format_request
  rw [if_neg h]
  dsimp only
  rw [if_neg (not_not_intro hm)]

theorem shape_getD0 (b0 b1 b2 b3 : ℕ) (A B C : List ℕ) :
    (([b0, b1, b2, b3] ++ List.replicate 20 0 ++ A ++ B ++ C).getD 0 0) = b0 := rfl

theorem shape_length {b0 b1 b2 b3 : ℕ} {A B C : List ℕ}
    (hA : A.length = 8) (hB : B.length = 8) (hC : C.length = 8) :
    ([b0, b1, b2, b3] ++ List.replicate 20 0 ++ A ++ B ++ C).length = 48 := by
  simp [hA, hB, hC]

theorem shape_drop24 {b0 b1 b2 b3 : ℕ} {A B C : List ℕ} (hA : A.length = 8) :
    (([b0, b1, b2, b3] ++ List.replicate 20 0 ++ A ++ B ++ C).drop 24).take 8 = A := by
  have e : [b0, b1, b2, b3] ++ List.replicate 20 0 ++ A ++ B ++ C =
      ([b0, b1, b2, b3] ++ List.replicate 20 0) ++ (A ++ (B ++ C)) := by
    simp [List.append_assoc]
  rw [e, List.drop_left' (by simp), List.take_left' hA]

theorem shape_drop32 {b0 b1 b2 b3 : ℕ} {A B C : List ℕ} (hA : A.length = 8)
    (hB : B.length = 8) :
    (([b0, b1, b2, b3] ++ List.replicate 20 0 ++ A ++ B ++ C).drop 32).take 8 = B := by
  have e : [b0, b1, b2, b3] ++ List.replicate 20 0 ++ A ++ B ++ C =
      (([b0, b1, b2, b3] ++ List.replicate 20 0) ++ A) ++ (B ++ C) := by
    simp [List.append_assoc]
  rw [e, List.drop_left' (by simp [hA]), List.take_left' hB]

theorem shape_drop40 {b0 b1 b2 b3 : ℕ} {A B C : List ℕ} (hA : A.length = 8)
    (hB : B.length = 8) (hC : C.length = 8) :
    (([b0, b1, b2, b3] ++ List.replicate 20 0 ++ A ++ B ++ C).drop 40).take 8 = C := by
  have e : [b0, b1, b2, b3] ++ List.replicate 20 0 ++ A ++ B ++ C =
      ((([b0, b1, b2, b3] ++ List.replicate 20 0) ++ A) ++ B) ++ C := by
    simp [List.append_assoc]
  rw [e, List.drop_left' (by simp [hA, hB]), ← hC, List.take_length]

theorem version_le_7 (x : ℕ) : (x &&& 56) >>> 3 ≤ 7 := by
  have h1 : x &&& 56 ≤ 56 := Nat.and_le_right
  have h2 : (x &&& 56) >>> 3 = (x &&& 56) / 8 := by
    rw [Nat.shiftRight_eq_div_pow]
  omega

theorem first_byte_lt (v : ℕ) (hv : v ≤ 7) (mo : ℕ) (hmo : mo < 8) :
    (0 : ℕ) <<< 6 ||| v <<< 3 ||| mo < 256 := by
  have h1 : v <<< 3 < 2 ^ 8 := by
    rw [Nat.shiftLeft_eq]
    omega
  have h2 : (0 : ℕ) <<< 6 ||| v <<< 3 < 2 ^ 8 :=
    Nat.or_lt_two_pow (by omega) h1
  exact Nat.or_lt_two_pow h2 (by omega)

theorem originate_lt (data : List ℕ) (hlen : 48 ≤ data.length)
    (hbytes : ∀ b ∈ data, b < 256) :
    ((fromBytesBE ((data.drop 40).take 8) : ℕ) : ℤ) < 2 ^ 64 := by
  have hl : ((data.drop 40).take 8).length = 8 := by
    simp [List.length_take, List.length_drop]
    omega
  have hb : ∀ b ∈ (data.drop 40).take 8, b < 256 := fun b hbm =>
    hbytes b (List.mem_of_mem_drop (List.mem_of_mem_take hbm))
  have := fromBytesBE_lt _ hb
  rw [hl] at this
  have h64 : (256 : ℕ) ^ 8 = 2 ^ 64 := by norm_num
  rw [h64] at this
  exact_mod_cast this

/-- Handling of a well-formed client request, written out byte for byte. -/
theorem server_response_valid (data : List ℕ) (D : ℤ) (t_a t_s : ℚ)
    (hlen : 48 ≤ data.length) (hbytes : ∀ b ∈ data, b < 256)
    (hm : (data.getD 0 0) &&& 7 = 3)
    (ha1 : 0 ≤ t_a + (TIME_OFFSET : ℚ) + (D : ℚ))
    (ha2 : t_a + (TIME_OFFSET : ℚ) + (D : ℚ) < 2 ^ 32)
    (hb1 : 0 ≤ t_s + (TIME_OFFSET : ℚ) + (D : ℚ))
    (hb2 : t_s + (TIME_OFFSET : ℚ) + (D : ℚ) < 2 ^ 32) :
    server_response D data t_a t_s = some (
      [(((data.getD 0 0) &&& 56) >>> 3) <<< 3 ||| 4, 0, 0, 0] ++ List.replicate 20 0 ++
      toBytesBE 8 (fromBytesBE ((data.drop 40).take 8)) ++
      toBytesBE 8 (format_time (t_a + (TIME_OFFSET : ℚ) + (D : ℚ))).toNat ++
      toBytesBE 8 (format_time (t_s + (TIME_OFFSET : ℚ) + (D : ℚ))).toNat) := by
  unfold server_response
  rw [format_request_valid (by omega) hm]
  simp only [reply_to_request]
  unfold SNTPMessage.get_reply pack_3Bb5I3Q
  dsimp only [SNTPMessage.init]
  rw [if_pos ⟨first_byte_lt _ (version_le_7 _) 4 (by norm_num), by norm_num, by norm_num,
    by norm_num, by norm_num, by norm_num, by norm_num, by norm_num, by norm_num, by norm_num,
    Int.natCast_nonneg _, originate_lt data hlen hbytes,
    format_time_nonneg ha1, format_time_lt ha1 ha2,
    format_time_nonneg hb1, format_time_lt hb1 hb2⟩]
  simp only [Nat.zero_shiftLeft, Nat.zero_or, Int.zero_emod, Int.toNat_zero, Int.toNat_natCast]
  rfl

/-- Handling of a short (malformed) datagram with a nonnegative, in-range
delay, written out byte for byte. -/
theorem server_response_malformed (data : List ℕ) (D : ℤ) (t_a t_s : ℚ)
    (hlen : data.length < 48) (hD0 : 0 ≤ D) (hD1 : (D : ℚ) < 2 ^ 32)
    (hs0 : 0 ≤ t_s + (TIME_OFFSET : ℚ) + (D : ℚ))
    (hs1 : t_s + (TIME_OFFSET : ℚ) + (D : ℚ) < 2 ^ 32) :
    server_response D data t_a t_s = some (
      [27, 0, 0, 0] ++ List.replicate 20 0 ++ toBytesBE 8 0 ++
      toBytesBE 8 (format_time ((0 : ℚ) + (D : ℚ))).toNat ++
      toBytesBE 8 (format_time (t_s + (TIME_OFFSET : ℚ) + (D : ℚ))).toNat) := by
  have hr0 : 0 ≤ (0 : ℚ) + (D : ℚ) := by
    rw [zero_add]
    exact_mod_cast hD0
  have hr1 : (0 : ℚ) + (D : ℚ) < 2 ^ 32 := by
    rw [zero_add]
    exact hD1
  unfold server_response
  rw [format_request_malformed hlen]
  simp only [reply_to_request]
  unfold SNTPMessage.get_reply pack_3Bb5I3Q
  dsimp only [SNTPMessage.init]
  rw [if_pos ⟨by decide, by norm_num, by norm_num, by norm_num, by norm_num, by norm_num,
    by norm_num, by norm_num, by norm_num, by norm_num, Int.natCast_nonneg _, by norm_num,
    format_time_nonneg hr0, format_time_lt hr0 hr1,
    format_time_nonneg hs0, format_time_lt hs0 hs1⟩]
  rfl

/-- A short datagram decoded to the always-truthy `SNTPMessage(False)`
combined with a negative delay makes `struct.pack` fail on the `'>Q'`
receive-timestamp argument, so no reply datagram is produced. -/
theorem server_response_short_neg (data : List ℕ) (D : ℤ) (t_a t_s : ℚ)
    (hlen : data.length < 48) (hD : D < 0) :
    server_response D data t_a t_s = none := by
  have hneg : format_time ((0 : ℚ) + (D : ℚ)) < 0 := by
    rw [zero_add, format_time_intCast]
    exact mul_neg_of_neg_of_pos hD (by norm_num)
  unfold server_response
  rw [format_request_malformed hlen]
  simp only [reply_to_request]
  unfold SNTPMessage.get_reply pack_3Bb5I3Q
  dsimp only [SNTPMessage.init]
  rw [if_neg]
  intro hc
  exact absurd (hc.2.2.2.2.2.2.2.2.2.2.2.2.1) (by exact not_le.mpr hneg)

/-- C7, counterexample: at `s = -2⁻³³`, the code's `int(s * 2**32)`
truncates `-1/2` toward zero and returns `0`, while `floor` of the same
product is `-1`; the claimed `floor` semantics fails for negative inputs. -/
theorem claim_C7_counterexample :
    format_time (-(1 : ℚ) / 2 ^ 33) = 0 ∧ ⌊(-(1 : ℚ) / 2 ^ 33) * 2 ^ 32⌋ = -1 ∧
      (0 : ℤ) ≠ -1 := by
  refine ⟨?_, ?_, by decide⟩
  · rw [format_time_eq_ceil (by norm_num)]
    have h : (-(1 : ℚ) / 2 ^ 33) * 2 ^ 32 = -(1 / 2) := by norm_num
    rw [h, Int.ceil_neg, Int.floor_eq_zero_iff.mpr (by constructor <;> norm_num)]
    exact neg_zero
  · have h : (-(1 : ℚ) / 2 ^ 33) * 2 ^ 32 = -(1 / 2) := by norm_num
    rw [h]
    exact Int.floor_eq_iff.mpr (by constructor <;> norm_num)

/-- C7 (amended): for every seconds value `s`, `format_time` returns the
truncation toward zero of `s * 2^32`: this equals `floor (s * 2^32)` for
nonnegative `s` and `ceil (s * 2^32)` for negative `s`. -/
theorem claim_C7 (s : ℚ) :
    (0 ≤ s → format_time s = ⌊s * 2 ^ 32⌋) ∧
      (s < 0 → format_time s = ⌈s * 2 ^ 32⌉) :=
  ⟨fun h => format_time_eq_floor h, fun h => format_time_eq_ceil h⟩

/-- Witness for C7 at `s = 3/2` and `s = -(3/2)`. -/
theorem claim_C7_witness :
    format_time ((3 : ℚ) / 2) = 3 * 2 ^ 31 ∧
      format_time (-((3 : ℚ) / 2)) = -(3 * 2 ^ 31) := by
  constructor
  · have h := (claim_C7 ((3 : ℚ) / 2)).1 (by norm_num)
    rw [h, show ((3 : ℚ) / 2) * 2 ^ 32 = ((3 * 2 ^ 31 : ℤ) : ℚ) by norm_num,
      Int.floor_intCast]
  · have h := (claim_C7 (-((3 : ℚ) / 2))).2 (by norm_num)
    rw [h, show (-((3 : ℚ) / 2)) * 2 ^ 32 = ((-(3 * 2 ^ 31) : ℤ) : ℚ) by norm_num,
      Int.ceil_intCast]

/-- C8: for every nonnegative `t` in the 32.32 fixed-point range, dividing
`format_time t` back by `2^32` recovers `t` within `2⁻³²` seconds. -/
theorem claim_C8 (t : ℚ) (h0 : 0 ≤ t) (h1 : t < 2 ^ 32) :
    |((format_time t : ℤ) : ℚ) / 2 ^ 32 - t| ≤ 1 / 2 ^ 32 :=
  format_time_close h0

/-- Witness for C8 at `t = 3/2`. -/
theorem claim_C8_witness :
    (0 ≤ (3 : ℚ) / 2) ∧ (3 : ℚ) / 2 < 2 ^ 32 ∧
      |((format_time ((3 : ℚ) / 2) : ℤ) : ℚ) / 2 ^ 32 - (3 : ℚ) / 2| ≤ 1 / 2 ^ 32 :=
  ⟨by norm_num, by norm_num, claim_C8 _ (by norm_num) (by norm_num)⟩

/-- C3: a datagram of length at least 48 whose mode bits are not 3 decodes
to `None` and the server sends nothing back. -/
theorem claim_C3 (data : List ℕ) (D : ℤ) (t_a t_s : ℚ)
    (hlen : 48 ≤ data.length) (hmode : (data.getD 0 0) &&& 7 ≠ 3) :
    format_request data t_a = none ∧ server_response D data t_a t_s = none := by
  have h := format_request_wrong_mode (by omega) hmode t_a
  refine ⟨h, ?_⟩
  unfold server_response
  rw [h]
  rfl

/-- Witness for C3 on a 48-byte all-zero datagram (mode 0). -/
theorem claim_C3_witness :
    48 ≤ (List.replicate 48 (0 : ℕ)).length ∧
      ((List.replicate 48 (0 : ℕ)).getD 0 0) &&& 7 ≠ 3 ∧
      format_request (List.replicate 48 (0 : ℕ)) 0 = none ∧
      server_response 5 (List.replicate 48 (0 : ℕ)) 0 0 = none :=
  ⟨by decide, by decide, claim_C3 (List.replicate 48 0) 5 0 0 (by decide) (by decide)⟩

/-- C10: a message decoded from a short datagram has `receive_time = 0`;
with any negative delay `D` the packed receive timestamp is the negative
integer `D * 2^32`, so `struct.pack` raises and no 48-byte reply is
produced; with a nonnegative delay the receive value is nonnegative and
that error branch cannot fire. -/
theorem claim_C10 :
    (∀ (data : List ℕ) (D : ℤ) (t_a t_s : ℚ), data.length < 48 → D < 0 →
      (format_request data t_a).map SNTPMessage.receive_time = some 0 ∧
      format_time ((0 : ℚ) + (D : ℚ)) = D * 2 ^ 32 ∧
      format_time ((0 : ℚ) + (D : ℚ)) < 0 ∧
      server_response D data t_a t_s = none) ∧
    (∀ D : ℤ, 0 ≤ D → 0 ≤ format_time ((0 : ℚ) + (D : ℚ))) := by
  constructor
  · intro data D t_a t_s hlen hD
    have hfmt : format_time ((0 : ℚ) + (D : ℚ)) = D * 2 ^ 32 := by
      rw [zero_add, format_time_intCast]
    refine ⟨?_, hfmt, ?_, server_response_short_neg data D t_a t_s hlen hD⟩
    · rw [format_request_malformed hlen]
      rfl
    · rw [hfmt]
      exact mul_neg_of_neg_of_pos hD (by norm_num)
  · intro D hD
    apply format_time_nonneg
    rw [zero_add]
    exact_mod_cast hD

/-- Witness for C10 with the one-byte datagram `[0]`, delays `-1` and `3`. -/
theorem claim_C10_witness :
    ((format_request [0] 0).map SNTPMessage.receive_time = some 0 ∧
      format_time ((0 : ℚ) + ((-1 : ℤ) : ℚ)) = -1 * 2 ^ 32 ∧
      format_time ((0 : ℚ) + ((-1 : ℤ) : ℚ)) < 0 ∧
      server_response (-1) [0] 0 0 = none) ∧
    0 ≤ format_time ((0 : ℚ) + ((3 : ℤ) : ℚ)) :=
  ⟨claim_C10.1 [0] (-1) 0 0 (by decide) (by decide), claim_C10.2 3 (by decide)⟩

/-- C2, counterexample: encoding is not total over the program's reply
messages — the message decoded from the 1-byte datagram `[0]` combined
with configured delay `-1` produces no bytes at all (the pack step fails),
rather than a 48-byte frame. -/
theorem claim_C2_counterexample :
    reply_to_request (-1) (format_request [0] 0) 0 = none :=
  server_response_short_neg [0] (-1) 0 0 (by decide) (by decide)

/-- C2 (amended): whenever the encoding step does produce a reply (no pack
error), it is exactly 48 bytes, big-endian: the packed
leap/version/mode byte, stratum, poll, the signed precision byte, five
zero 32-bit words (20 zero bytes), then the three 64-bit timestamps
(originate, receive, transmit). -/
theorem claim_C2 (m : SNTPMessage) (now : ℚ) (bs : List ℕ)
    (h : m.get_reply now = some bs) :
    bs.length = 48 ∧
    bs = [(m.leap_indicator <<< 6) ||| (m.version <<< 3) ||| m.mode,
        m.stratum, m.poll, (m.precision % 256).toNat] ++ List.replicate 20 0 ++
      toBytesBE 8 m.originate_time ++
      toBytesBE 8 (format_time (m.receive_time + (m.time_offset : ℚ))).toNat ++
      toBytesBE 8 (format_time (now + (TIME_OFFSET : ℚ) + (m.time_offset : ℚ))).toNat := by
  obtain ⟨-, -, -, -, -, hbs⟩ := get_reply_some_inv m now bs h
  refine ⟨?_, hbs⟩
  rw [hbs]
  exact shape_length (toBytesBE_length _ _) (toBytesBE_length _ _) (toBytesBE_length _ _)

/-- Witness for C2 on the message decoded from `[0]` with delay 0. -/
theorem claim_C2_witness :
    SNTPMessage.get_reply { SNTPMessage.init false with time_offset := (0 : ℤ) } 0 =
      some ([27, 0, 0, 0] ++ List.replicate 20 0 ++ toBytesBE 8 0 ++
        toBytesBE 8 (format_time ((0 : ℚ) + ((0 : ℤ) : ℚ))).toNat ++
        toBytesBE 8 (format_time ((0 : ℚ) + (TIME_OFFSET : ℚ) + ((0 : ℤ) : ℚ))).toNat) ∧
    ([27, 0, 0, 0] ++ List.replicate 20 0 ++ toBytesBE 8 0 ++
      toBytesBE 8 (format_time ((0 : ℚ) + ((0 : ℤ) : ℚ))).toNat ++
      toBytesBE 8 (format_time ((0 : ℚ) + (TIME_OFFSET : ℚ) + ((0 : ℤ) : ℚ))).toNat).length
      = 48 := by
  have h : SNTPMessage.get_reply { SNTPMessage.init false with time_offset := (0 : ℤ) } 0 =
      some ([27, 0, 0, 0] ++ List.replicate 20 0 ++ toBytesBE 8 0 ++
        toBytesBE 8 (format_time ((0 : ℚ) + ((0 : ℤ) : ℚ))).toNat ++
        toBytesBE 8 (format_time ((0 : ℚ) + (TIME_OFFSET : ℚ) + ((0 : ℤ) : ℚ))).toNat) :=
    server_response_malformed [0] 0 0 0 (by decide) (by decide) (by norm_num)
      (by positivity) (by norm_num [TIME_OFFSET_eq])
  exact ⟨h, (claim_C2 _ 0 _ h).1⟩

/-- C9, counterexample: in a reply the server actually produces, the
originate timestamp sits at bytes 24-31, not 40-47: for the scenario
request (originate `2^32`) the field at bytes 24-31 is `2^32` while the
field at bytes 40-47 is the transmit timestamp. -/
theorem claim_C9_counterexample :
    (server_response 0 reqScenario 0 0).map (fun bs => fromBytesBE ((bs.drop 24).take 8)) =
      some 4294967296 ∧
    (server_response 0 reqScenario 0 0).map (fun bs => fromBytesBE ((bs.drop 40).take 8)) =
      some (2208988800 * 2 ^ 32) ∧
    (4294967296 : ℕ) ≠ 2208988800 * 2 ^ 32 := by
  have h := server_response_valid reqScenario 0 0 0 (by decide) (by decide) (by decide)
    (by positivity) (by norm_num [TIME_OFFSET_eq]) (by positivity) (by norm_num [TIME_OFFSET_eq])
  rw [h]
  have hfmt : format_time ((0 : ℚ) + (TIME_OFFSET : ℚ) + ((0 : ℤ) : ℚ)) =
      2208988800 * 2 ^ 32 := by
    rw [show (0 : ℚ) + (TIME_OFFSET : ℚ) + ((0 : ℤ) : ℚ) = ((2208988800 : ℤ) : ℚ) by
      norm_num [TIME_OFFSET_eq], format_time_intCast]
  refine ⟨?_, ?_, by decide⟩
  · simp only [Option.map_some']
    rw [shape_drop24 (toBytesBE_length _ _)]
    rw [fromBytesBE_toBytesBE (by decide : fromBytesBE ((reqScenario.drop 40).take 8) < 256 ^ 8)]
    decide
  · simp only [Option.map_some']
    rw [shape_drop40 (toBytesBE_length _ _) (toBytesBE_length _ _) (toBytesBE_length _ _), hfmt]
    rw [show ((2208988800 * 2 ^ 32 : ℤ)).toNat = (2208988800 * 2 ^ 32 : ℕ) by decide]
    rw [fromBytesBE_toBytesBE (by norm_num : (2208988800 * 2 ^ 32 : ℕ) < 256 ^ 8)]

/-- C9 (amended): in the 48-byte reply frame this program produces, the
three 64-bit big-endian timestamps occupy bytes 24-47 — originate at
24-31, receive at 32-39, transmit at 40-47; on the consuming side the
64-bit big-endian field the server reads as the originate timestamp is
bytes 40-47 of the request. -/
theorem claim_C9 :
    (∀ (m : SNTPMessage) (now : ℚ) (bs : List ℕ), m.get_reply now = some bs →
      bs.length = 48 ∧
      (bs.drop 24).take 8 = toBytesBE 8 m.originate_time ∧
      (bs.drop 32).take 8 =
        toBytesBE 8 (format_time (m.receive_time + (m.time_offset : ℚ))).toNat ∧
      (bs.drop 40).take 8 =
        toBytesBE 8 (format_time (now + (TIME_OFFSET : ℚ) + (m.time_offset : ℚ))).toNat) ∧
    (∀ (data : List ℕ) (now : ℚ) (m : SNTPMessage), 48 ≤ data.length →
      format_request data now = some m →
      m.originate_time = fromBytesBE ((data.drop 40).take 8)) := by
  constructor
  · intro m now bs h
    obtain ⟨-, -, -, -, -, hbs⟩ := get_reply_some_inv m now bs h
    subst hbs
    exact ⟨shape_length (toBytesBE_length _ _) (toBytesBE_length _ _) (toBytesBE_length _ _),
      shape_drop24 (toBytesBE_length _ _),
      shape_drop32 (toBytesBE_length _ _) (toBytesBE_length _ _),
      shape_drop40 (toBytesBE_length _ _) (toBytesBE_length _ _) (toBytesBE_length _ _)⟩
  · intro data now m hlen hm
    by_cases hmode : (data.getD 0 0) &&& 7 = 3
    · rw [format_request_valid (by omega) hmode] at hm
      cases Option.some_injective _ hm
      rfl
    · rw [format_request_wrong_mode (by omega) hmode] at hm
      exact absurd hm (by simp)

/-- Witness for C9: a produced reply (short datagram, delay 1) and a
consumed request (`reqSimple`). -/
theorem claim_C9_witness :
    (([27, 0, 0, 0] ++ List.replicate 20 0 ++ toBytesBE 8 0 ++
        toBytesBE 8 (format_time ((0 : ℚ) + ((1 : ℤ) : ℚ))).toNat ++
        toBytesBE 8 (format_time ((0 : ℚ) + (TIME_OFFSET : ℚ) + ((1 : ℤ) : ℚ))).toNat).drop
          24).take 8 = toBytesBE 8 0 ∧
    (SNTPMessage.init true 0 4 0 ((0 : ℚ) + (TIME_OFFSET : ℚ))).originate_time =
      fromBytesBE ((reqSimple.drop 40).take 8) := by
  have h : SNTPMessage.get_reply { SNTPMessage.init false with time_offset := (1 : ℤ) } 0 =
      some ([27, 0, 0, 0] ++ List.replicate 20 0 ++ toBytesBE 8 0 ++
        toBytesBE 8 (format_time ((0 : ℚ) + ((1 : ℤ) : ℚ))).toNat ++
        toBytesBE 8 (format_time ((0 : ℚ) + (TIME_OFFSET : ℚ) + ((1 : ℤ) : ℚ))).toNat) :=
    server_response_malformed [5] 1 0 0 (by decide) (by decide) (by norm_num)
      (by positivity) (by norm_num [TIME_OFFSET_eq])
  have h2 : format_request reqSimple 0 =
      some (SNTPMessage.init true 0 4 0 ((0 : ℚ) + (TIME_OFFSET : ℚ))) :=
    format_request_valid (by decide) (by decide) 0
  exact ⟨(claim_C9.1 _ 0 _ h).2.1, claim_C9.2 reqSimple 0 _ (by decide) h2⟩

/-- C4, counterexample: the claim's "originate and receive fields are
zero" fails — with configured delay 5, the reply to the short datagram
`[0]` has receive timestamp field `5 * 2^32`, not zero. -/
theorem claim_C4_counterexample :
    (server_response 5 [0] 0 0).map (fun bs => fromBytesBE ((bs.drop 32).take 8)) =
      some (5 * 2 ^ 32) ∧ (5 * 2 ^ 32 : ℕ) ≠ 0 := by
  have h := server_response_malformed [0] 5 0 0 (by decide) (by decide) (by norm_num)
    (by positivity) (by norm_num [TIME_OFFSET_eq])
  rw [h]
  refine ⟨?_, by decide⟩
  simp only [Option.map_some']
  rw [shape_drop32 (toBytesBE_length _ _) (toBytesBE_length _ _)]
  rw [show format_time ((0 : ℚ) + ((5 : ℤ) : ℚ)) = 5 * 2 ^ 32 by
    rw [zero_add, show ((5 : ℤ) : ℚ) = ((5 : ℤ) : ℚ) from rfl, format_time_intCast]]
  rw [show ((5 * 2 ^ 32 : ℤ)).toNat = (5 * 2 ^ 32 : ℕ) by decide]
  rw [fromBytesBE_toBytesBE (by norm_num : (5 * 2 ^ 32 : ℕ) < 256 ^ 8)]

/-- C4 (amended): for every datagram shorter than 48 bytes and a
nonnegative in-range configured delay `D`, the server still sends a
48-byte reply; its originate field is zero and its receive field is
`D * 2^32` — zero exactly when `D = 0` (and for negative `D` no reply is
sent at all, see C10). -/
theorem claim_C4 (data : List ℕ) (D : ℤ) (t_a t_s : ℚ)
    (hlen : data.length < 48) (hD0 : 0 ≤ D) (hD1 : (D : ℚ) < 2 ^ 32)
    (hs0 : 0 ≤ t_s + (TIME_OFFSET : ℚ) + (D : ℚ))
    (hs1 : t_s + (TIME_OFFSET : ℚ) + (D : ℚ) < 2 ^ 32) :
    server_response D data t_a t_s ≠ none ∧
    ∀ bs, server_response D data t_a t_s = some bs →
      bs.length = 48 ∧ fromBytesBE ((bs.drop 24).take 8) = 0 ∧
      fromBytesBE ((bs.drop 32).take 8) = D.toNat * 2 ^ 32 := by
  have h := server_response_malformed data D t_a t_s hlen hD0 hD1 hs0 hs1
  refine ⟨by rw [h]; simp, ?_⟩
  intro bs hbs
  rw [h] at hbs
  cases Option.some_injective _ hbs
  have hDlt : D < 4294967296 := by
    have : D < 2 ^ 32 := by exact_mod_cast hD1
    norm_num at this
    exact this
  refine ⟨shape_length (toBytesBE_length _ _) (toBytesBE_length _ _) (toBytesBE_length _ _),
    ?_, ?_⟩
  · rw [shape_drop24 (toBytesBE_length _ _)]
    exact fromBytesBE_toBytesBE (by norm_num)
  · rw [shape_drop32 (toBytesBE_length _ _) (toBytesBE_length _ _)]
    rw [show format_time ((0 : ℚ) + (D : ℚ)) = D * 2 ^ 32 by
      rw [zero_add, format_time_intCast]]
    have e1 : (D * 2 ^ 32 : ℤ) = D * 4294967296 := by norm_num
    have e2 : ((D * 4294967296 : ℤ)).toNat = D.toNat * 4294967296 := by omega
    rw [e1, e2]
    rw [fromBytesBE_toBytesBE
      (by rw [show (256 : ℕ) ^ 8 = 18446744073709551616 by norm_num]; omega)]
    norm_num

/-- Witness for C4 on the datagram `[0]` with delay 5. -/
theorem claim_C4_witness :
    server_response 5 [0] 0 0 ≠ none ∧
    (([27, 0, 0, 0] ++ List.replicate 20 0 ++ toBytesBE 8 0 ++
        toBytesBE 8 (format_time ((0 : ℚ) + ((5 : ℤ) : ℚ))).toNat ++
        toBytesBE 8 (format_time ((0 : ℚ) + (TIME_OFFSET : ℚ) + ((5 : ℤ) : ℚ))).toNat).length
        = 48) ∧
    fromBytesBE ((([27, 0, 0, 0] ++ List.replicate 20 0 ++ toBytesBE 8 0 ++
        toBytesBE 8 (format_time ((0 : ℚ) + ((5 : ℤ) : ℚ))).toNat ++
        toBytesBE 8 (format_time ((0 : ℚ) + (TIME_OFFSET : ℚ) + ((5 : ℤ) : ℚ))).toNat).drop
          24).take 8) = 0 ∧
    fromBytesBE ((([27, 0, 0, 0] ++ List.replicate 20 0 ++ toBytesBE 8 0 ++
        toBytesBE 8 (format_time ((0 : ℚ) + ((5 : ℤ) : ℚ))).toNat ++
        toBytesBE 8 (format_time ((0 : ℚ) + (TIME_OFFSET : ℚ) + ((5 : ℤ) : ℚ))).toNat).drop
          32).take 8) = (5 : ℤ).toNat * 2 ^ 32 := by
  have hc := claim_C4 [0] 5 0 0 (by decide) (by decide) (by norm_num)
    (by positivity) (by norm_num [TIME_OFFSET_eq])
  have h := server_response_malformed [0] 5 0 0 (by decide) (by decide) (by norm_num)
    (by positivity) (by norm_num [TIME_OFFSET_eq])
  exact ⟨hc.1, hc.2 _ h⟩

/-- C1: for every datagram of 48 or more bytes with mode bits 3 and
originate bytes 40-47 decoding to `X`, any reply the server sends echoes
`X` exactly in its originate timestamp field and carries mode 4. -/
theorem claim_C1 (data : List ℕ) (D : ℤ) (t_a t_s : ℚ)
    (hlen : 48 ≤ data.length) (hbytes : ∀ b ∈ data, b < 256)
    (hmode : (data.getD 0 0) &&& 7 = 3) :
    ∀ bs, server_response D data t_a t_s = some bs →
      fromBytesBE ((bs.drop 24).take 8) = fromBytesBE ((data.drop 40).take 8) ∧
      (bs.getD 0 0) &&& 7 = 4 := by
  intro bs hbs
  unfold server_response at hbs
  rw [format_request_valid (by omega) hmode] at hbs
  simp only [reply_to_request] at hbs
  obtain ⟨-, -, -, -, horig, hbsEq⟩ := get_reply_some_inv _ _ _ hbs
  dsimp only [SNTPMessage.init] at hbsEq horig
  subst hbsEq
  constructor
  · rw [shape_drop24 (toBytesBE_length _ _)]
    refine fromBytesBE_toBytesBE ?_
    rw [show (256 : ℕ) ^ 8 = 2 ^ 64 by norm_num]
    exact_mod_cast horig
  · rw [shape_getD0]
    have hv : ((data.getD 0 0) &&& 56) >>> 3 ≤ 7 := version_le_7 _
    simp only [Nat.zero_shiftLeft, Nat.zero_or]
    set v := ((data.getD 0 0) &&& 56) >>> 3 with hd
    interval_cases v <;> decide

/-- Witness for C1 on `reqSimple` with delay 0. -/
theorem claim_C1_witness :
    fromBytesBE ((([(((reqSimple.getD 0 0) &&& 56) >>> 3) <<< 3 ||| 4, 0, 0, 0] ++
        List.replicate 20 0 ++
        toBytesBE 8 (fromBytesBE ((reqSimple.drop 40).take 8)) ++
        toBytesBE 8 (format_time ((0 : ℚ) + (TIME_OFFSET : ℚ) + ((0 : ℤ) : ℚ))).toNat ++
        toBytesBE 8 (format_time ((0 : ℚ) + (TIME_OFFSET : ℚ) + ((0 : ℤ) : ℚ))).toNat).drop
          24).take 8) = fromBytesBE ((reqSimple.drop 40).take 8) ∧
    (([(((reqSimple.getD 0 0) &&& 56) >>> 3) <<< 3 ||| 4, 0, 0, 0] ++
        List.replicate 20 0 ++
        toBytesBE 8 (fromBytesBE ((reqSimple.drop 40).take 8)) ++
        toBytesBE 8 (format_time ((0 : ℚ) + (TIME_OFFSET : ℚ) + ((0 : ℤ) : ℚ))).toNat ++
        toBytesBE 8 (format_time ((0 : ℚ) + (TIME_OFFSET : ℚ) + ((0 : ℤ) : ℚ))).toNat).getD
          0 0) &&& 7 = 4 := by
  have h := server_response_valid reqSimple 0 0 0 (by decide) (by decide) (by decide)
    (by positivity) (by norm_num [TIME_OFFSET_eq]) (by positivity)
    (by norm_num [TIME_OFFSET_eq])
  exact claim_C1 reqSimple 0 0 0 (by decide) (by decide) (by decide) _ h

/-- C6: with any configured delay `D` (negative delays included), whenever
a reply is sent its receive field encodes the request's arrival wall-clock
reading plus the epoch offset plus `D` to within one `2⁻³²` unit; and when
`D ≥ 0` and the send-time reading is at least the arrival reading, the
transmit field is at least the receive field. -/
theorem claim_C6 (data : List ℕ) (D : ℤ) (t_a t_s : ℚ)
    (hlen : 48 ≤ data.length) (hbytes : ∀ b ∈ data, b < 256)
    (hmode : (data.getD 0 0) &&& 7 = 3)
    (ha1 : 0 ≤ t_a + (TIME_OFFSET : ℚ) + (D : ℚ))
    (ha2 : t_a + (TIME_OFFSET : ℚ) + (D : ℚ) < 2 ^ 32)
    (hb1 : 0 ≤ t_s + (TIME_OFFSET : ℚ) + (D : ℚ))
    (hb2 : t_s + (TIME_OFFSET : ℚ) + (D : ℚ) < 2 ^ 32) :
    server_response D data t_a t_s ≠ none ∧
    ∀ bs, server_response D data t_a t_s = some bs →
      |(fromBytesBE ((bs.drop 32).take 8) : ℚ) / 2 ^ 32 -
          (t_a + (TIME_OFFSET : ℚ) + (D : ℚ))| ≤ 1 / 2 ^ 32 ∧
      (0 ≤ D → t_a ≤ t_s →
        fromBytesBE ((bs.drop 32).take 8) ≤ fromBytesBE ((bs.drop 40).take 8)) := by
  have h := server_response_valid data D t_a t_s hlen hbytes hmode ha1 ha2 hb1 hb2
  refine ⟨by rw [h]; simp, ?_⟩
  intro bs hbs
  rw [h] at hbs
  cases Option.some_injective _ hbs
  have hR0 : 0 ≤ format_time (t_a + (TIME_OFFSET : ℚ) + (D : ℚ)) := format_time_nonneg ha1
  have hR1 : format_time (t_a + (TIME_OFFSET : ℚ) + (D : ℚ)) < 2 ^ 64 :=
    format_time_lt ha1 ha2
  have hT1 : format_time (t_s + (TIME_OFFSET : ℚ) + (D : ℚ)) < 2 ^ 64 :=
    format_time_lt hb1 hb2
  have hrtR : fromBytesBE (toBytesBE 8
      (format_time (t_a + (TIME_OFFSET : ℚ) + (D : ℚ))).toNat) =
      (format_time (t_a + (TIME_OFFSET : ℚ) + (D : ℚ))).toNat := by
    refine fromBytesBE_toBytesBE ?_
    rw [show (256 : ℕ) ^ 8 = 18446744073709551616 by norm_num]
    norm_num at hR1
    omega
  have hrtT : fromBytesBE (toBytesBE 8
      (format_time (t_s + (TIME_OFFSET : ℚ) + (D : ℚ))).toNat) =
      (format_time (t_s + (TIME_OFFSET : ℚ) + (D : ℚ))).toNat := by
    refine fromBytesBE_toBytesBE ?_
    rw [show (256 : ℕ) ^ 8 = 18446744073709551616 by norm_num]
    norm_num at hT1
    omega
  constructor
  · rw [shape_drop32 (toBytesBE_length _ _) (toBytesBE_length _ _), hrtR]
    have hcast : (((format_time (t_a + (TIME_OFFSET : ℚ) + (D : ℚ))).toNat : ℕ) : ℚ) =
        ((format_time (t_a + (TIME_OFFSET : ℚ) + (D : ℚ)) : ℤ) : ℚ) := by
      exact_mod_cast congrArg (Int.cast : ℤ → ℚ) (Int.toNat_of_nonneg hR0)
    rw [hcast]
    exact format_time_close ha1
  · intro _ hts
    have harg : t_a + (TIME_OFFSET : ℚ) + (D : ℚ) ≤ t_s + (TIME_OFFSET : ℚ) + (D : ℚ) := by
      linarith
    rw [shape_drop32 (toBytesBE_length _ _) (toBytesBE_length _ _),
      shape_drop40 (toBytesBE_length _ _) (toBytesBE_length _ _) (toBytesBE_length _ _),
      hrtR, hrtT]
    exact Int.toNat_le_toNat (format_time_mono ha1 harg)

/-- Witness for C6 on `reqSimple` with delay 0 and both clock readings 0. -/
theorem claim_C6_witness :
    |(fromBytesBE ((([(((reqSimple.getD 0 0) &&& 56) >>> 3) <<< 3 ||| 4, 0, 0, 0] ++
          List.replicate 20 0 ++
          toBytesBE 8 (fromBytesBE ((reqSimple.drop 40).take 8)) ++
          toBytesBE 8 (format_time ((0 : ℚ) + (TIME_OFFSET : ℚ) + ((0 : ℤ) : ℚ))).toNat ++
          toBytesBE 8 (format_time ((0 : ℚ) + (TIME_OFFSET : ℚ) + ((0 : ℤ) : ℚ))).toNat).drop
            32).take 8) : ℚ) / 2 ^ 32 -
        ((0 : ℚ) + (TIME_OFFSET : ℚ) + ((0 : ℤ) : ℚ))| ≤ 1 / 2 ^ 32 ∧
    fromBytesBE ((([(((reqSimple.getD 0 0) &&& 56) >>> 3) <<< 3 ||| 4, 0, 0, 0] ++
        List.replicate 20 0 ++
        toBytesBE 8 (fromBytesBE ((reqSimple.drop 40).take 8)) ++
        toBytesBE 8 (format_time ((0 : ℚ) + (TIME_OFFSET : ℚ) + ((0 : ℤ) : ℚ))).toNat ++
        toBytesBE 8 (format_time ((0 : ℚ) + (TIME_OFFSET : ℚ) + ((0 : ℤ) : ℚ))).toNat).drop
          32).take 8) ≤
      fromBytesBE ((([(((reqSimple.getD 0 0) &&& 56) >>> 3) <<< 3 ||| 4, 0, 0, 0] ++
        List.replicate 20 0 ++
        toBytesBE 8 (fromBytesBE ((reqSimple.drop 40).take 8)) ++
        toBytesBE 8 (format_time ((0 : ℚ) + (TIME_OFFSET : ℚ) + ((0 : ℤ) : ℚ))).toNat ++
        toBytesBE 8 (format_time ((0 : ℚ) + (TIME_OFFSET : ℚ) + ((0 : ℤ) : ℚ))).toNat).drop
          40).take 8) := by
  have h := server_response_valid reqSimple 0 0 0 (by decide) (by decide) (by decide)
    (by positivity) (by norm_num [TIME_OFFSET_eq]) (by positivity)
    (by norm_num [TIME_OFFSET_eq])
  have hc := (claim_C6 reqSimple 0 0 0 (by decide) (by decide) (by decide)
    (by positivity) (by norm_num [TIME_OFFSET_eq]) (by positivity)
    (by norm_num [TIME_OFFSET_eq])).2 _ h
  exact ⟨hc.1, hc.2 (by norm_num) (by norm_num)⟩

/-- C5, counterexample: the reply's first byte is `0x1C` (the server
echoes the request's version 3, with mode 4), not the claimed `0x24`. -/
theorem claim_C5_counterexample :
    (server_response 5 reqScenario 0 0).map (fun bs => bs.getD 0 0) = some 28 ∧
      (28 : ℕ) ≠ 36 := by
  have h := server_response_valid reqScenario 5 0 0 (by decide) (by decide) (by decide)
    (by positivity) (by norm_num [TIME_OFFSET_eq]) (by positivity)
    (by norm_num [TIME_OFFSET_eq])
  rw [h]
  refine ⟨?_, by decide⟩
  simp only [Option.map_some']
  rw [shape_getD0]
  decide

/-- C5 (amended): for a 48-byte request with `byte0 = 0x1B` and originate
field `0x0000000100000000`, on a server with delay 5 the reply is 48 bytes
with `byte0 = 0x1C` (leap 0, version 3 echoed from the request, mode 4),
the originate field preserved, and receive/transmit fields encoding times
at least `serverClockAtReceipt + epoch offset + 5s` minus one `2⁻³²`
encoding unit. -/
theorem claim_C5 (data : List ℕ) (t_a t_s : ℚ)
    (hlen : data.length = 48) (hbytes : ∀ b ∈ data, b < 256)
    (hb0 : data.getD 0 0 = 27)
    (horig : fromBytesBE ((data.drop 40).take 8) = 4294967296)
    (hta : 0 ≤ t_a) (hts : t_a ≤ t_s)
    (hrange : t_s + (TIME_OFFSET : ℚ) + ((5 : ℤ) : ℚ) < 2 ^ 32) :
    server_response 5 data t_a t_s ≠ none ∧
    ∀ bs, server_response 5 data t_a t_s = some bs →
      bs.length = 48 ∧ bs.getD 0 0 = 28 ∧
      fromBytesBE ((bs.drop 24).take 8) = 4294967296 ∧
      t_a + (TIME_OFFSET : ℚ) + 5 - 1 / 2 ^ 32 ≤
        (fromBytesBE ((bs.drop 32).take 8) : ℚ) / 2 ^ 32 ∧
      t_a + (TIME_OFFSET : ℚ) + 5 - 1 / 2 ^ 32 ≤
        (fromBytesBE ((bs.drop 40).take 8) : ℚ) / 2 ^ 32 := by
  have hmode : (data.getD 0 0) &&& 7 = 3 := by
    rw [hb0]
    decide
  have hTOpos : (0 : ℚ) ≤ (TIME_OFFSET : ℚ) := by positivity
  have hc5 : ((5 : ℤ) : ℚ) = (5 : ℚ) := by norm_num
  have ha1 : 0 ≤ t_a + (TIME_OFFSET : ℚ) + ((5 : ℤ) : ℚ) := by
    rw [hc5]
    linarith
  have harg : t_a + (TIME_OFFSET : ℚ) + ((5 : ℤ) : ℚ) ≤
      t_s + (TIME_OFFSET : ℚ) + ((5 : ℤ) : ℚ) := by linarith
  have ha2 : t_a + (TIME_OFFSET : ℚ) + ((5 : ℤ) : ℚ) < 2 ^ 32 := lt_of_le_of_lt harg hrange
  have hb1 : 0 ≤ t_s + (TIME_OFFSET : ℚ) + ((5 : ℤ) : ℚ) := le_trans ha1 harg
  have h := server_response_valid data 5 t_a t_s (by omega) hbytes hmode ha1 ha2 hb1 hrange
  refine ⟨by rw [h]; simp, ?_⟩
  intro bs hbs
  rw [h] at hbs
  cases Option.some_injective _ hbs
  have hR0 : 0 ≤ format_time (t_a + (TIME_OFFSET : ℚ) + ((5 : ℤ) : ℚ)) :=
    format_time_nonneg ha1
  have hT0 : 0 ≤ format_time (t_s + (TIME_OFFSET : ℚ) + ((5 : ℤ) : ℚ)) :=
    format_time_nonneg hb1
  have hR1 : format_time (t_a + (TIME_OFFSET : ℚ) + ((5 : ℤ) : ℚ)) < 2 ^ 64 :=
    format_time_lt ha1 ha2
  have hT1 : format_time (t_s + (TIME_OFFSET : ℚ) + ((5 : ℤ) : ℚ)) < 2 ^ 64 :=
    format_time_lt hb1 hrange
  have hrtR : fromBytesBE (toBytesBE 8
      (format_time (t_a + (TIME_OFFSET : ℚ) + ((5 : ℤ) : ℚ))).toNat) =
      (format_time (t_a + (TIME_OFFSET : ℚ) + ((5 : ℤ) : ℚ))).toNat := by
    refine fromBytesBE_toBytesBE ?_
    rw [show (256 : ℕ) ^ 8 = 18446744073709551616 by norm_num]
    rw [show ((2 : ℤ) ^ 64) = 18446744073709551616 by norm_num] at hR1
    omega
  have hrtT : fromBytesBE (toBytesBE 8
      (format_time (t_s + (TIME_OFFSET : ℚ) + ((5 : ℤ) : ℚ))).toNat) =
      (format_time (t_s + (TIME_OFFSET : ℚ) + ((5 : ℤ) : ℚ))).toNat := by
    refine fromBytesBE_toBytesBE ?_
    rw [show (256 : ℕ) ^ 8 = 18446744073709551616 by norm_num]
    rw [show ((2 : ℤ) ^ 64) = 18446744073709551616 by norm_num] at hT1
    omega
  have hcastR : (((format_time (t_a + (TIME_OFFSET : ℚ) + ((5 : ℤ) : ℚ))).toNat : ℕ) : ℚ) =
      ((format_time (t_a + (TIME_OFFSET : ℚ) + ((5 : ℤ) : ℚ)) : ℤ) : ℚ) := by
    exact_mod_cast congrArg (Int.cast : ℤ → ℚ) (Int.toNat_of_nonneg hR0)
  have hcastT : (((format_time (t_s + (TIME_OFFSET : ℚ) + ((5 : ℤ) : ℚ))).toNat : ℕ) : ℚ) =
      ((format_time (t_s + (TIME_OFFSET : ℚ) + ((5 : ℤ) : ℚ)) : ℤ) : ℚ) := by
    exact_mod_cast congrArg (Int.cast : ℤ → ℚ) (Int.toNat_of_nonneg hT0)
  have hboundR : t_a + (TIME_OFFSET : ℚ) + 5 - 1 / 2 ^ 32 ≤
      ((format_time (t_a + (TIME_OFFSET : ℚ) + ((5 : ℤ) : ℚ)) : ℤ) : ℚ) / 2 ^ 32 := by
    have := format_time_sub_one_lt ha1
    rw [hc5] at this
    exact this
  refine ⟨shape_length (toBytesBE_length _ _) (toBytesBE_length _ _) (toBytesBE_length _ _),
    ?_, ?_, ?_, ?_⟩
  · rw [shape_getD0, hb0]
    decide
  · rw [shape_drop24 (toBytesBE_length _ _), horig]
    exact fromBytesBE_toBytesBE (by norm_num)
  · rw [shape_drop32 (toBytesBE_length _ _) (toBytesBE_length _ _), hrtR, hcastR]
    exact hboundR
  · rw [shape_drop40 (toBytesBE_length _ _) (toBytesBE_length _ _) (toBytesBE_length _ _),
      hrtT, hcastT]
    refine le_trans hboundR ?_
    have hmono := format_time_mono ha1 harg
    have : ((format_time (t_a + (TIME_OFFSET : ℚ) + ((5 : ℤ) : ℚ)) : ℤ) : ℚ) ≤
        ((format_time (t_s + (TIME_OFFSET : ℚ) + ((5 : ℤ) : ℚ)) : ℤ) : ℚ) := by
      exact_mod_cast hmono
    gcongr

/-- Witness for C5 on `reqScenario` with both clock readings 0. -/
theorem claim_C5_witness :
    (([(((reqScenario.getD 0 0) &&& 56) >>> 3) <<< 3 ||| 4, 0, 0, 0] ++
        List.replicate 20 0 ++
        toBytesBE 8 (fromBytesBE ((reqScenario.drop 40).take 8)) ++
        toBytesBE 8 (format_time ((0 : ℚ) + (TIME_OFFSET : ℚ) + ((5 : ℤ) : ℚ))).toNat ++
        toBytesBE 8 (format_time ((0 : ℚ) + (TIME_OFFSET : ℚ) + ((5 : ℤ) : ℚ))).toNat).length
        = 48) ∧
    (([(((reqScenario.getD 0 0) &&& 56) >>> 3) <<< 3 ||| 4, 0, 0, 0] ++
        List.replicate 20 0 ++
        toBytesBE 8 (fromBytesBE ((reqScenario.drop 40).take 8)) ++
        toBytesBE 8 (format_time ((0 : ℚ) + (TIME_OFFSET : ℚ) + ((5 : ℤ) : ℚ))).toNat ++
        toBytesBE 8 (format_time ((0 : ℚ) + (TIME_OFFSET : ℚ) + ((5 : ℤ) : ℚ))).toNat).getD
        0 0 = 28) ∧
    fromBytesBE ((([(((reqScenario.getD 0 0) &&& 56) >>> 3) <<< 3 ||| 4, 0, 0, 0] ++
        List.replicate 20 0 ++
        toBytesBE 8 (fromBytesBE ((reqScenario.drop 40).take 8)) ++
        toBytesBE 8 (format_time ((0 : ℚ) + (TIME_OFFSET : ℚ) + ((5 : ℤ) : ℚ))).toNat ++
        toBytesBE 8 (format_time ((0 : ℚ) + (TIME_OFFSET : ℚ) + ((5 : ℤ) : ℚ))).toNat).drop
          24).take 8) = 4294967296 ∧
    (0 : ℚ) + (TIME_OFFSET : ℚ) + 5 - 1 / 2 ^ 32 ≤
      (fromBytesBE ((([(((reqScenario.getD 0 0) &&& 56) >>> 3) <<< 3 ||| 4, 0, 0, 0] ++
        List.replicate 20 0 ++
        toBytesBE 8 (fromBytesBE ((reqScenario.drop 40).take 8)) ++
        toBytesBE 8 (format_time ((0 : ℚ) + (TIME_OFFSET : ℚ) + ((5 : ℤ) : ℚ))).toNat ++
        toBytesBE 8 (format_time ((0 : ℚ) + (TIME_OFFSET : ℚ) + ((5 : ℤ) : ℚ))).toNat).drop
          32).take 8) : ℚ) / 2 ^ 32 ∧
    (0 : ℚ) + (TIME_OFFSET : ℚ) + 5 - 1 / 2 ^ 32 ≤
      (fromBytesBE ((([(((reqScenario.getD 0 0) &&& 56) >>> 3) <<< 3 ||| 4, 0, 0, 0] ++
        List.replicate 20 0 ++
        toBytesBE 8 (fromBytesBE ((reqScenario.drop 40).take 8)) ++
        toBytesBE 8 (format_time ((0 : ℚ) + (TIME_OFFSET : ℚ) + ((5 : ℤ) : ℚ))).toNat ++
        toBytesBE 8 (format_time ((0 : ℚ) + (TIME_OFFSET : ℚ) + ((5 : ℤ) : ℚ))).toNat).drop
          40).take 8) : ℚ) / 2 ^ 32 := by
  have h := server_response_valid reqScenario 5 0 0 (by decide) (by decide) (by decide)
    (by positivity) (by norm_num [TIME_OFFSET_eq]) (by positivity)
    (by norm_num [TIME_OFFSET_eq])
  exact (claim_C5 reqScenario 0 0 (by decide) (by decide) (by decide) (by decide)
    (by norm_num) (by norm_num) (by norm_num [TIME_OFFSET_eq])).2 _ h

end SNTP
